import Mathlib

/-!
Verification of the AGStreamer session-lifecycle and connection state machine.

The definitions below are a shallow embedding of the TypeScript sources:
  - client/src/lib (useAgora hook): connection status machine, leave teardown,
    file-sourced audio track lifecycle;
  - server/routes.ts: session creation, quota check, heartbeat;
  - server/storage.ts: MemStorage daily usage, AudioBotManager worker supervisor;
  - pages/voice-bot.tsx: countdown-to-expiry coordinator.

Dates and timestamps are modelled as natural numbers of milliseconds, date keys
and identities as strings, and audio tracks as numeric identifiers.  Each
handler takes the ambient clock value as an explicit argument.
-/

namespace AGStreamer

/-- Modelled from the spec: the constant MAX_CONNECTIONS_PER_DAY is imported
from the shared schema module, whose defining fragment is not present under
src.  The repository documentation states the limit of 3 connections per day,
and the spec scenario (usedToday 1,2,3 then 429) agrees. -/
def MAX_CONNECTIONS_PER_DAY : Nat := 3

/-- Modelled from the spec: the constant MAX_SESSION_DURATION_MS is imported
from the shared schema module, whose defining fragment is not present under
src.  The repository documentation and the expiry log line in routes.ts state
5 minutes per session. -/
def MAX_SESSION_DURATION_MS : Nat := 5 * 60 * 1000

/-- ConnectionStatus enum from shared/schema.ts. -/
inductive ConnectionStatus
  | disconnected
  | connecting
  | connected
  | reconnecting
  | error
deriving DecidableEq

/-- Provider connection states, from the connectionState field of
IAgoraRTCClient in agora-types.ts. -/
inductive ProviderConnState
  | CONNECTED
  | CONNECTING
  | RECONNECTING
  | DISCONNECTED
  | DISCONNECTING
deriving DecidableEq

/-- Events that mutate the status state of the useAgora hook: the two
setStatus calls inside join (the CONNECTING at the top of the try block and
the ERROR in the catch block), the point where join returns without touching
status, the connection-state-change handler, the token-privilege-did-expire
handler, and the end of leave. -/
inductive AgoraEvent
  | joinStart
  | joinSuccess
  | joinError
  | connStateChange (cur : ProviderConnState)
  | tokenDidExpire
  | leaveComplete
deriving DecidableEq

/-- The switch statement of the connection-state-change handler in useAgora.
There is no case for DISCONNECTING, so that event leaves status unchanged. -/
def statusAfterConnEvent (s : ConnectionStatus) (cur : ProviderConnState) :
    ConnectionStatus :=
  match cur with
  | .CONNECTED => .connected
  | .CONNECTING => .connecting
  | .RECONNECTING => .reconnecting
  | .DISCONNECTED => .disconnected
  | .DISCONNECTING => s

/-- Status machine state.  The field status is the hook state variable; the
two last-event fields are ghost observers of the event stream: lastConnEvent
records the most recent provider connection-state event of any kind, and
lastHandledConnEvent records the most recent one that the switch statement of
the handler has a case for (every state except DISCONNECTING). -/
structure StatusMachineState where
  status : ConnectionStatus
  lastConnEvent : Option ProviderConnState
  lastHandledConnEvent : Option ProviderConnState
deriving DecidableEq

/-- One step of the status machine of the useAgora hook. -/
def statusStep (s : StatusMachineState) (e : AgoraEvent) : StatusMachineState :=
  match e with
  | .joinStart => { s with status := .connecting }
  | .joinSuccess => s
  | .joinError => { s with status := .error }
  | .connStateChange cur =>
      { status := statusAfterConnEvent s.status cur
        lastConnEvent := some cur
        lastHandledConnEvent :=
          if cur = .DISCONNECTING then s.lastHandledConnEvent else some cur }
  | .tokenDidExpire => { s with status := .error }
  | .leaveComplete => { s with status := .disconnected }

/-- Initial hook state: useState(ConnectionStatus.DISCONNECTED). -/
def initialStatusState : StatusMachineState :=
  { status := .disconnected, lastConnEvent := none, lastHandledConnEvent := none }

/-- Run the status machine over a sequence of events. -/
def runStatusMachine (evs : List AgoraEvent) : StatusMachineState :=
  evs.foldl statusStep initialStatusState

/-- Association list standing for a JavaScript Map with string keys: get. -/
def mapGet {α : Type} : List (String × α) → String → Option α
  | [], _ => none
  | (k, v) :: rest, key => if k = key then some v else mapGet rest key

/-- Association list standing for a JavaScript Map with string keys: set. -/
def mapSet {α : Type} : List (String × α) → String → α → List (String × α)
  | [], key, v => [(key, v)]
  | (k, old) :: rest, key, v =>
      if k = key then (k, v) :: rest else (k, old) :: mapSet rest key v

/-- Association list standing for a JavaScript Map with string keys: delete. -/
def mapDelete {α : Type} (m : List (String × α)) (key : String) :
    List (String × α) :=
  m.filter (fun kv => decide (kv.1 ≠ key))

/-- DailyUsage record from shared/schema.ts as used by MemStorage. -/
structure DailyUsage where
  dateKey : String
  count : Nat
deriving DecidableEq

/-- The MemStorage dailyUsage map. -/
abbrev UsageStore := List (String × DailyUsage)

/-- MemStorage.getDailyUsage: the stored entry counts only when its dateKey is
the current day key; otherwise the usage lazily reads as zero for today. -/
def getDailyUsage (store : UsageStore) (userId todayKey : String) : DailyUsage :=
  match mapGet store userId with
  | none => { dateKey := todayKey, count := 0 }
  | some usage =>
      if usage.dateKey ≠ todayKey then { dateKey := todayKey, count := 0 }
      else usage

/-- MemStorage.incrementDailyUsage: read through getDailyUsage, then store the
successor count under the current day key.  Returns the updated record and the
updated store. -/
def incrementDailyUsage (store : UsageStore) (userId todayKey : String) :
    DailyUsage × UsageStore :=
  let current := getDailyUsage store userId todayKey
  let updated : DailyUsage := { dateKey := todayKey, count := current.count + 1 }
  (updated, mapSet store userId updated)

/-- VoiceSession record from server/routes.ts (expiryTimeout is the armed
timer; modelled by the expiresAt deadline itself). -/
structure VoiceSession where
  id : String
  channelId : String
  userId : String
  joinedAt : Nat
  lastActivity : Nat
  expiresAt : Nat
deriving DecidableEq

/-- The in-memory sessions map of server/routes.ts. -/
abbrev SessionStore := List (String × VoiceSession)

/-- SessionLimitStatus payload returned by the session endpoints. -/
structure SessionLimitStatus where
  remainingConnections : Nat
  maxConnectionsPerDay : Nat
  usedToday : Nat
  resetAt : String
  sessionExpiresAt : Option Nat
  sessionRemainingMs : Option Nat
deriving DecidableEq

/-- Server-side mutable state touched by the session endpoints. -/
structure ServerState where
  usage : UsageStore
  sessions : SessionStore
deriving DecidableEq

/-- Outcome of POST /api/sessions: 201 created or 429 quota exceeded. -/
inductive CreateSessionResult
  | created (sessionId channelId userId : String) (joinedAt : Nat)
      (limits : SessionLimitStatus)
  | quotaExceeded (limits : SessionLimitStatus)
deriving DecidableEq

/-- POST /api/sessions handler from server/routes.ts.  The token argument is
the bearer token taken from the Authorization header; channelId and userId are
the parsed request body.  now is Date.now() at handler entry, todayKey and
resetAt are the values of getTodayDateKey and getResetTime, newSessionId is
the fresh crypto.randomUUID.  Math.max(0, MAX - count) becomes truncated
natural subtraction. -/
def createSessionRoute (st : ServerState) (token channelId userId : String)
    (now : Nat) (todayKey resetAt newSessionId : String) :
    CreateSessionResult × ServerState :=
  let usage := getDailyUsage st.usage token todayKey
  if MAX_CONNECTIONS_PER_DAY ≤ usage.count then
    (.quotaExceeded
      { remainingConnections := 0
        maxConnectionsPerDay := MAX_CONNECTIONS_PER_DAY
        usedToday := usage.count
        resetAt := resetAt
        sessionExpiresAt := none
        sessionRemainingMs := none }, st)
  else
    let expiresAt := now + MAX_SESSION_DURATION_MS
    let session : VoiceSession :=
      { id := newSessionId, channelId := channelId, userId := userId
        joinedAt := now, lastActivity := now, expiresAt := expiresAt }
    let sessions := mapSet st.sessions newSessionId session
    let incr := incrementDailyUsage st.usage token todayKey
    let limits : SessionLimitStatus :=
      { remainingConnections := MAX_CONNECTIONS_PER_DAY - incr.1.count
        maxConnectionsPerDay := MAX_CONNECTIONS_PER_DAY
        usedToday := incr.1.count
        resetAt := resetAt
        sessionExpiresAt := some expiresAt
        sessionRemainingMs := some MAX_SESSION_DURATION_MS }
    (.created newSessionId channelId userId now limits,
      { usage := incr.2, sessions := sessions })

/-- Outcome of POST /api/sessions/:sessionId/heartbeat. -/
inductive HeartbeatResult
  | ok (lastActivity : Nat)
  | notFound
deriving DecidableEq

/-- Heartbeat handler from server/routes.ts: look the session up, refresh its
lastActivity only, and store it back under the same id. -/
def heartbeatRoute (st : ServerState) (sessionId : String) (now : Nat) :
    HeartbeatResult × ServerState :=
  match mapGet st.sessions sessionId with
  | none => (.notFound, st)
  | some session =>
      let updated := { session with lastActivity := now }
      (.ok now, { st with sessions := mapSet st.sessions sessionId updated })

/-- The limits payload carried by either outcome of POST /api/sessions. -/
def CreateSessionResult.limits : CreateSessionResult → SessionLimitStatus
  | .created _ _ _ _ l => l
  | .quotaExceeded l => l

/-- Client-side state of the useAgora hook relevant to the track lifecycle.
Audio tracks are modelled by numeric identifiers allocated by nextTrackId.
filePublished lists the file-track identifiers that have been passed to
client.publish and never to client.unpublish while the client was alive;
closedTracks lists identifiers on which close was called.  The Bool fields
mirror the nullability of the corresponding refs. -/
structure HookState where
  sdkLoaded : Bool
  status : ConnectionStatus
  client : Bool
  localAudioTrack : Bool
  volumeInterval : Bool
  audioTimeInterval : Bool
  audioFileTrack : Option Nat
  audioTrackPublished : Bool
  filePublished : List Nat
  closedTracks : List Nat
  nextTrackId : Nat
  isMuted : Bool
  remoteUsers : List Nat
  networkQuality : Nat
  audioFileName : Option Nat
  isAudioPlaying : Bool
  isAudioPaused : Bool
  audioCurrentTime : Nat
  audioDuration : Nat
deriving DecidableEq

/-- useAgora.leave teardown, in source order: clear the two interval timers;
stop the file track, unpublish it when the client exists and the published
flag is set (a failing unpublish is swallowed by the inner try/catch, exposed
here through the unpublishFails flag), clear the flag, close the track and
null the ref; stop and close the microphone track; leave the transport and
drop all listeners (leaving the channel ends every remaining publication);
clear the participant map and reset the observable state.  The outer catch
only logs, so the call always resolves without error. -/
def leave (unpublishFails : Bool) (s : HookState) : HookState :=
  let s1 := { s with volumeInterval := false, audioTimeInterval := false }
  let s2 :=
    match s1.audioFileTrack with
    | some t =>
        let sa :=
          if s1.client && s1.audioTrackPublished && !unpublishFails then
            { s1 with filePublished := s1.filePublished.filter (fun x => decide (x ≠ t)) }
          else s1
        { sa with audioTrackPublished := false
                  closedTracks := t :: sa.closedTracks
                  audioFileTrack := none }
    | none => s1
  let s3 := { s2 with localAudioTrack := false }
  let s4 := if s3.client then { s3 with client := false, filePublished := [] } else s3
  { s4 with remoteUsers := [], status := .disconnected, isMuted := false
            networkQuality := 0, audioFileName := none, isAudioPlaying := false
            isAudioPaused := false, audioCurrentTime := 0, audioDuration := 0 }

/-- useAgora.loadAudioFile: when a previous file track exists it is stopped
and closed and the published flag cleared — there is no client.unpublish call
on this path — then a fresh buffer-source track is created and becomes the
current track.  Requires the SDK to be loaded.  The duration argument is the
duration the provider reports for the new track. -/
def loadAudioFile (duration : Nat) (s : HookState) : HookState :=
  if !s.sdkLoaded then s
  else
    let s1 :=
      match s.audioFileTrack with
      | some t =>
          { s with closedTracks := t :: s.closedTracks
                   audioFileTrack := none
                   audioTrackPublished := false }
      | none => s
    { s1 with audioFileTrack := some s1.nextTrackId
              audioFileName := some s1.nextTrackId
              nextTrackId := s1.nextTrackId + 1
              audioDuration := duration
              audioCurrentTime := 0
              isAudioPlaying := false
              isAudioPaused := false }

/-- useAgora.playAudio: requires a loaded file track and a client; publishes
the current track unless the published flag is already set, then starts
buffer processing and the position-tracking interval. -/
def playAudio (s : HookState) : HookState :=
  match s.audioFileTrack with
  | none => s
  | some t =>
      if !s.client then s
      else
        let s1 :=
          if !s.audioTrackPublished then
            { s with filePublished := t :: s.filePublished
                     audioTrackPublished := true }
          else s
        { s1 with isAudioPlaying := true, isAudioPaused := false
                  audioTimeInterval := true }

/-- useAgora.stopAudio: stops buffer processing, unpublishes the current track
when the client exists and the published flag is set, clears the tracking
interval and resets playback state.  The track is not closed and stays
current. -/
def stopAudio (s : HookState) : HookState :=
  match s.audioFileTrack with
  | none => s
  | some t =>
      let s1 :=
        if s.client && s.audioTrackPublished then
          { s with filePublished := s.filePublished.filter (fun x => decide (x ≠ t))
                   audioTrackPublished := false }
        else s
      { s1 with audioTimeInterval := false, isAudioPlaying := false
                isAudioPaused := false, audioCurrentTime := 0 }

/-- Successful join as far as the track lifecycle is concerned: creates the
client and the muted microphone track and starts the volume sampler.  Status
is deliberately left to the provider events. -/
def joinOk (s : HookState) : HookState :=
  if !s.sdkLoaded then s
  else { s with status := .connecting, client := true, localAudioTrack := true
                volumeInterval := true }

/-- Operations driving the hook state. -/
inductive HookOp
  | sdkLoad
  | joinOk
  | load (duration : Nat)
  | play
  | stopA
  | leaveOp (unpublishFails : Bool)
deriving DecidableEq

/-- One hook operation. -/
def hookStep (s : HookState) (op : HookOp) : HookState :=
  match op with
  | .sdkLoad => { s with sdkLoaded := true }
  | .joinOk => joinOk s
  | .load d => loadAudioFile d s
  | .play => playAudio s
  | .stopA => stopAudio s
  | .leaveOp f => leave f s

/-- Initial hook state from the useState initializers. -/
def initialHookState : HookState :=
  { sdkLoaded := false, status := .disconnected, client := false
    localAudioTrack := false, volumeInterval := false, audioTimeInterval := false
    audioFileTrack := none, audioTrackPublished := false, filePublished := []
    closedTracks := [], nextTrackId := 0, isMuted := true, remoteUsers := []
    networkQuality := 0, audioFileName := none, isAudioPlaying := false
    isAudioPaused := false, audioCurrentTime := 0, audioDuration := 0 }

/-- Run the hook over a sequence of operations. -/
def runHook (ops : List HookOp) : HookState :=
  ops.foldl hookStep initialHookState

/-- File tracks currently published on the client and still open. -/
def livePublished (s : HookState) : List Nat :=
  s.filePublished.filter (fun t => decide (t ∉ s.closedTracks))

/-- Track-lifecycle invariant of the hook state: the published file tracks are
pairwise distinct, each of them is either already closed or is the current
track with the published flag set, identifiers are allocated below
nextTrackId, and the current track is never closed. -/
def hookInv (s : HookState) : Prop :=
  s.filePublished.Nodup
  ∧ (∀ t ∈ s.filePublished,
      t ∈ s.closedTracks ∨ (s.audioFileTrack = some t ∧ s.audioTrackPublished = true))
  ∧ (∀ t ∈ s.filePublished, t < s.nextTrackId)
  ∧ (∀ t ∈ s.closedTracks, t < s.nextTrackId)
  ∧ (∀ t, s.audioFileTrack = some t → t < s.nextTrackId ∧ t ∉ s.closedTracks)

/-- VoiceBot page state for the countdown/expiry coordinator of
voice-bot.tsx, faithful to the React semantics.  handleLeave is a useCallback
over [leave, toast, sessionId, addLog]; leave, toast and addLog are stable,
so the identity of handleLeave is modelled by handleLeaveGen, bumped exactly
when sessionId changes.  The expiry effect depends on
[timeRemaining, isConnected, handleLeave, addLog, toast]; with the stable
entries dropped its dependency tuple is (timeRemaining, connected,
handleLeaveGen).  hasSession models sessionId being non-null and
countdownActive models the countdown interval being armed.  handleLeave runs
synchronously only up to its first await: the remainder is an outstanding
continuation, counted by pendingDelete (awaiting the session DELETE) and
pendingLeave (awaiting leave()).  noticeCount, leaveCallCount and deleteCount
are ghost counters of the session-expired notices, the handleLeave
invocations, and the DELETE requests issued. -/
structure VoiceBotState where
  connected : Bool
  timeRemaining : Option Nat
  hasSession : Bool
  countdownActive : Bool
  handleLeaveGen : Nat
  lastExpiryDeps : Option (Option Nat × Bool × Nat)
  pendingDelete : Nat
  pendingLeave : Nat
  noticeCount : Nat
  leaveCallCount : Nat
  deleteCount : Nat
deriving DecidableEq

/-- The dependency tuple of the expiry effect, stable entries dropped. -/
def expiryDeps (s : VoiceBotState) : Option Nat × Bool × Nat :=
  (s.timeRemaining, s.connected, s.handleLeaveGen)

/-- Synchronous prefix of handleLeave in voice-bot.tsx: clear the heartbeat
and countdown intervals; if a session id is present, null it (which being a
state change recreates the handleLeave callback on the next render, bumping
handleLeaveGen) and issue the session DELETE, suspending at its await;
otherwise proceed directly to await leave().  Everything after the first
await — the leave() call, the state resets and the disconnected toast — is a
pending continuation. -/
def handleLeave (s : VoiceBotState) : VoiceBotState :=
  let s1 := { s with countdownActive := false
                     leaveCallCount := s.leaveCallCount + 1 }
  if s1.hasSession then
    { s1 with hasSession := false
              handleLeaveGen := s1.handleLeaveGen + 1
              deleteCount := s1.deleteCount + 1
              pendingDelete := s1.pendingDelete + 1 }
  else
    { s1 with pendingLeave := s1.pendingLeave + 1 }

/-- One run of the body of the expiry effect: when timeRemaining is zero
while connected it logs and toasts the session-expired notice and invokes
handleLeave; in every case the run records the dependency tuple it ran
under. -/
def expiryEffectBody (s : VoiceBotState) : VoiceBotState :=
  let s1 := { s with lastExpiryDeps := some (expiryDeps s) }
  if s.timeRemaining = some 0 ∧ s.connected = true then
    handleLeave { s1 with noticeCount := s1.noticeCount + 1 }
  else s1

/-- React effect pass: the expiry effect re-runs while its dependency tuple
differs from the one recorded at its previous run — each run may itself
change the dependencies, e.g. by nulling sessionId inside handleLeave.  The
recursion is fueled; a fuel of four always reaches the fixpoint, since a run
that does not change the dependencies is the last and only the first fire of
a pass can change them. -/
def effectPass : Nat → VoiceBotState → VoiceBotState
  | 0, s => s
  | fuel + 1, s =>
      if s.lastExpiryDeps = some (expiryDeps s) then s
      else effectPass fuel (expiryEffectBody s)

/-- External events during the expiry window: a countdown interval tick, the
resolution of the session DELETE request, and the completion of a pending
leave() call (after which status is disconnected and the continuation nulls
timeRemaining). -/
inductive VoiceBotEvent
  | tick
  | resolveDelete
  | resolveLeave
deriving DecidableEq

/-- Apply one external event.  The tick updater of the countdown interval
floors at zero once at most one second remains (and maps a null remaining
time to zero, as the source updater does); it only runs while the interval is
armed. -/
def applyVoiceBotEvent (s : VoiceBotState) : VoiceBotEvent → VoiceBotState
  | .tick =>
      if s.countdownActive = true then
        match s.timeRemaining with
        | some t =>
            { s with timeRemaining := some (if t ≤ 1000 then 0 else t - 1000) }
        | none => { s with timeRemaining := some 0 }
      else s
  | .resolveDelete =>
      if s.pendingDelete = 0 then s
      else
        { s with pendingDelete := s.pendingDelete - 1
                 pendingLeave := s.pendingLeave + 1 }
  | .resolveLeave =>
      if s.pendingLeave = 0 then s
      else
        { s with pendingLeave := s.pendingLeave - 1
                 connected := false
                 timeRemaining := none }

/-- One scheduler round: an external event followed by the React effect
pass. -/
def voiceBotStep (s : VoiceBotState) (e : VoiceBotEvent) : VoiceBotState :=
  effectPass 4 (applyVoiceBotEvent s e)

/-- State right after a session was created and the provider reported
connected: the countdown interval is armed with the server-provided
remaining time, the session id is held, and the expiry effect has run under
the current dependencies. -/
def connectedCountdownState (T : Nat) : VoiceBotState :=
  { connected := true, timeRemaining := some T, hasSession := true
    countdownActive := true, handleLeaveGen := 0
    lastExpiryDeps := some (some T, true, 0)
    pendingDelete := 0, pendingLeave := 0
    noticeCount := 0, leaveCallCount := 0, deleteCount := 0 }

/-- Run the coordinator from the post-join state. -/
def runVoiceBot (T : Nat) (evs : List VoiceBotEvent) : VoiceBotState :=
  evs.foldl voiceBotStep (connectedCountdownState T)

/-- Invariant for claim C6: notices track handleLeave invocations one to one,
the teardown fires at most twice, a fired teardown has nulled the session id
and disarmed the countdown, at most one session DELETE is ever issued, and
once two teardowns fired the effect is stable or its guard is dead. -/
def countdownInv (s : VoiceBotState) : Prop :=
  s.noticeCount = s.leaveCallCount
  ∧ s.leaveCallCount ≤ 2
  ∧ (1 ≤ s.leaveCallCount → s.hasSession = false ∧ s.countdownActive = false)
  ∧ (s.hasSession = true → s.deleteCount = 0)
  ∧ s.deleteCount ≤ 1
  ∧ (s.leaveCallCount = 2 →
      s.lastExpiryDeps = some (expiryDeps s)
      ∨ ¬(s.timeRemaining = some 0 ∧ s.connected = true))

/-- Error outcomes of useAgora.join, per the spec taxonomy: the throw before
the try block when the SDK is absent, and the wrapped provider exception from
the catch block. -/
inductive JoinError
  | notReady (message : String)
  | joinFailed (message : String)
deriving DecidableEq

/-- useAgora.join distilled to its status effects.  Before the try block it
throws when window.AgoraRTC is absent, touching nothing.  Inside the try it
sets status to connecting and then connects and publishes; on success it
returns the assigned uid and deliberately does not set status to connected;
on any provider exception the catch block sets status to error and rethrows
the provider message. -/
def joinCall (sdkLoaded : Bool) (providerOutcome : Except String Nat)
    (status : ConnectionStatus) : Except JoinError Nat × ConnectionStatus :=
  if !sdkLoaded then
    (Except.error (JoinError.notReady "Agora SDK not loaded"), status)
  else
    match providerOutcome with
    | Except.ok uid => (Except.ok uid, ConnectionStatus.connecting)
    | Except.error msg =>
        (Except.error (JoinError.joinFailed msg), ConnectionStatus.error)

/-- Ready message of the worker handshake, as consumed by the readyHandler of
AudioBotManager.start. -/
structure ReadyMsg where
  sdkAvailable : Bool
  agoraAvailable : Bool
  pydubAvailable : Bool
  error : Option String
deriving DecidableEq

/-- Supervisor state touched by the readyHandler. -/
structure BotMgrState where
  processRunning : Bool
  sdkAvailable : Bool
  agoraAvailable : Bool
  pydubAvailable : Bool
  lastError : Option String
deriving DecidableEq

/-- Fallback diagnostic used when the ready message carries no error string. -/
def sdkUnavailableFallback : String :=
  "Agora Python SDK not available - audio bot features require the agora-python-server-sdk and pydub packages"

/-- readyHandler from AudioBotManager.start: capture the capability flags; if
the SDK is unavailable, record the diagnostic (the worker error string behind
an "SDK not available: " marker when present, the generic fallback otherwise),
kill the process and resolve false; otherwise clear lastError and resolve
true.  The Bool component is the value passed to resolveOnce. -/
def readyHandler (s : BotMgrState) (msg : ReadyMsg) : BotMgrState × Bool :=
  let s1 := { s with sdkAvailable := msg.sdkAvailable
                     agoraAvailable := msg.agoraAvailable
                     pydubAvailable := msg.pydubAvailable }
  if !msg.sdkAvailable then
    let err :=
      match msg.error with
      | some e => "SDK not available: " ++ e
      | none => sdkUnavailableFallback
    ({ s1 with lastError := some err, processRunning := false }, false)
  else
    ({ s1 with lastError := none }, true)

/-- Bot protocol message reduced to its type tag, the only field the
correlation path of handleMessage inspects. -/
structure BotMessage where
  type : String
deriving DecidableEq

/-- The suffix test responseType.endsWith("_response") of handleMessage,
computed on the character lists. -/
def isResponseType (t : String) : Bool :=
  "_response".data.isSuffixOf t.data

/-- Correlation state of one sendCommandWithResponse call: the key set of
pendingCallbacks, and the resolution of the promise returned for the command
under scrutiny (none while still unresolved, some none for the null result,
some (some m) for a delivered response). -/
structure WaitState where
  pending : List String
  resolved : Option (Option BotMessage)
deriving DecidableEq

/-- Events that can reach the correlation state while a command waits: an
inbound worker message, or the firing of the timeout timer.  The timer is
cleared by the callback, so it acts only while the promise is unresolved. -/
inductive WaitEvent
  | msgArrives (m : BotMessage)
  | timeoutFires
deriving DecidableEq

/-- One correlation step.  An inbound message whose type carries the response
suffix and has a registered callback removes that callback and, when it is
the one we wait for, clears the timeout and resolves the promise with the
message.  The timeout deletes the pending callback for our response type and
resolves the promise with the null result. -/
def waitStep (responseType : String) (st : WaitState) (e : WaitEvent) : WaitState :=
  match e with
  | .msgArrives m =>
      if isResponseType m.type && decide (m.type ∈ st.pending) then
        { pending := st.pending.filter (fun x => decide (x ≠ m.type))
          resolved :=
            if m.type = responseType ∧ st.resolved = none then some (some m)
            else st.resolved }
      else st
  | .timeoutFires =>
      if st.resolved = none then
        { pending := st.pending.filter (fun x => decide (x ≠ responseType))
          resolved := some none }
      else st

/-- State right after sendCommandWithResponse registered its callback and
wrote the command line. -/
def waitStart (responseType : String) : WaitState :=
  { pending := [responseType], resolved := none }

/-- Run the correlation machine over the events observed while waiting. -/
def runWait (responseType : String) (evs : List WaitEvent) : WaitState :=
  evs.foldl (waitStep responseType) (waitStart responseType)

/-- Invariant for claim C9: once resolved, our callback is gone. -/
def waitInv (responseType : String) (st : WaitState) : Prop :=
  st.resolved.isSome = true → responseType ∉ st.pending

/-- A command/response round trip of AudioBotManager with its timeout. -/
structure IssuedCommand where
  command : String
  responseType : String
  timeoutMs : Nat
deriving DecidableEq

/-- Default timeout of sendCommandWithResponse. -/
def defaultCommandTimeoutMs : Nat := 30000

/-- AudioBotManager command table: each public method issues one command and
waits for the matching response type; every call uses the default timeout
except shutdown, which waits 5000 ms for quit_response. -/
def initCommand : IssuedCommand :=
  { command := "init", responseType := "init_response"
    timeoutMs := defaultCommandTimeoutMs }

/-- joinChannel round trip. -/
def joinCommand : IssuedCommand :=
  { command := "join", responseType := "join_response"
    timeoutMs := defaultCommandTimeoutMs }

/-- leaveChannel round trip. -/
def leaveCommand : IssuedCommand :=
  { command := "leave", responseType := "leave_response"
    timeoutMs := defaultCommandTimeoutMs }

/-- playAudio round trip. -/
def playCommand : IssuedCommand :=
  { command := "play", responseType := "play_response"
    timeoutMs := defaultCommandTimeoutMs }

/-- stopPlayback round trip. -/
def stopCommand : IssuedCommand :=
  { command := "stop", responseType := "stop_response"
    timeoutMs := defaultCommandTimeoutMs }

/-- shutdown round trip: quit with a 5 second timeout. -/
def quitCommand : IssuedCommand :=
  { command := "quit", responseType := "quit_response", timeoutMs := 5000 }

end AGStreamer

namespace AGStreamer

/-- Invariant used for claim C1: status can only hold connected when the most
recent handled connection-state event was CONNECTED. -/
def connInv (s : StatusMachineState) : Prop :=
  s.status = .connected → s.lastHandledConnEvent = some .CONNECTED

theorem statusStep_preserves_connInv (s : StatusMachineState) (e : AgoraEvent)
    (h : connInv s) : connInv (statusStep s e) := by
  cases e with
  | joinStart => intro hc; simp [statusStep] at hc
  | joinSuccess => exact h
  | joinError => intro hc; simp [statusStep] at hc
  | connStateChange cur =>
      cases cur with
      | CONNECTED => intro _; simp [statusStep]
      | CONNECTING => intro hc; simp [statusStep, statusAfterConnEvent] at hc
      | RECONNECTING => intro hc; simp [statusStep, statusAfterConnEvent] at hc
      | DISCONNECTED => intro hc; simp [statusStep, statusAfterConnEvent] at hc
      | DISCONNECTING =>
          intro hc
          simp [statusStep, statusAfterConnEvent] at hc ⊢
          exact h hc
  | tokenDidExpire => intro hc; simp [statusStep] at hc
  | leaveComplete => intro hc; simp [statusStep] at hc

theorem foldl_preserves_connInv (evs : List AgoraEvent) :
    ∀ s : StatusMachineState, connInv s → connInv (evs.foldl statusStep s) := by
  induction evs with
  | nil => intro s h; exact h
  | cons e rest ih =>
      intro s h
      exact ih (statusStep s e) (statusStep_preserves_connInv s e h)

/-- C1 counterexample: after a CONNECTED provider event followed by a
DISCONNECTING provider event, status still holds connected although the most
recent provider connection-state event is DISCONNECTING, not a fully connected
state.  The switch in the handler has no DISCONNECTING case, so the event
leaves status untouched.  This refutes the claim as stated. -/
theorem C1_counterexample :
    (runStatusMachine
        [AgoraEvent.connStateChange ProviderConnState.CONNECTED,
         AgoraEvent.connStateChange ProviderConnState.DISCONNECTING]).status
      = ConnectionStatus.connected
    ∧ (runStatusMachine
        [AgoraEvent.connStateChange ProviderConnState.CONNECTED,
         AgoraEvent.connStateChange ProviderConnState.DISCONNECTING]).lastConnEvent
      ≠ some ProviderConnState.CONNECTED := by
  constructor
  · rfl
  · decide

/-- C1 amended: for every sequence of join/leave calls and provider events,
status never holds connected unless the most recent provider connection-state
event that the handler switch has a case for (every state except
DISCONNECTING, which is ignored and leaves status unchanged) reported the
fully connected state; moreover the completion of join leaves status untouched
and the start of join sets it to connecting, so join itself never sets status
to connected — only the connection-state-change handler does. -/
theorem C1_connected_only_from_provider (evs : List AgoraEvent) :
    ((runStatusMachine evs).status = ConnectionStatus.connected →
      (runStatusMachine evs).lastHandledConnEvent = some ProviderConnState.CONNECTED)
    ∧ (∀ s : StatusMachineState, (statusStep s .joinSuccess).status = s.status)
    ∧ (∀ s : StatusMachineState,
        (statusStep s .joinStart).status = ConnectionStatus.connecting) := by
  refine ⟨?_, ?_, ?_⟩
  · exact foldl_preserves_connInv evs initialStatusState (by intro h; cases h)
  · intro s; rfl
  · intro s; rfl

/-- Witness for C1: a run whose last provider event is CONNECTED does end with
status connected, and the theorem then yields the recorded handled event. -/
theorem C1_connected_only_from_provider_witness :
    (runStatusMachine [AgoraEvent.connStateChange ProviderConnState.CONNECTED]).lastHandledConnEvent
      = some ProviderConnState.CONNECTED :=
  (C1_connected_only_from_provider
      [AgoraEvent.connStateChange ProviderConnState.CONNECTED]).1 (by decide)

theorem mapGet_mapSet_self {α : Type} (m : List (String × α)) (k : String) (v : α) :
    mapGet (mapSet m k v) k = some v := by
  induction m with
  | nil => simp [mapGet, mapSet]
  | cons kv rest ih =>
      obtain ⟨k0, v0⟩ := kv
      by_cases h : k0 = k
      · simp [mapSet, mapGet, h]
      · simp [mapSet, mapGet, h, ih]

theorem mapGet_mapSet_ne {α : Type} (m : List (String × α)) (k k' : String)
    (v : α) (h : k' ≠ k) : mapGet (mapSet m k v) k' = mapGet m k' := by
  induction m with
  | nil => simp [mapGet, mapSet, Ne.symm h]
  | cons kv rest ih =>
      obtain ⟨k0, v0⟩ := kv
      by_cases h0 : k0 = k
      · subst h0
        have hne : ¬ (k0 = k') := fun hc => h hc.symm
        simp [mapSet, mapGet, hne]
      · by_cases h1 : k0 = k'
        · simp only [mapSet, if_neg h0, mapGet, if_pos h1]
        · simp only [mapSet, if_neg h0, mapGet, if_neg h1]
          exact ih

theorem getDailyUsage_after_increment (store : UsageStore) (user day : String) :
    getDailyUsage (incrementDailyUsage store user day).2 user day
      = { dateKey := day, count := (getDailyUsage store user day).count + 1 } := by
  simp [incrementDailyUsage, getDailyUsage, mapGet_mapSet_self]

theorem createSessionRoute_of_lt (st : ServerState) (token ch uid : String)
    (now : Nat) (todayKey resetAt sid : String)
    (h : (getDailyUsage st.usage token todayKey).count < MAX_CONNECTIONS_PER_DAY) :
    createSessionRoute st token ch uid now todayKey resetAt sid
      = (CreateSessionResult.created sid ch uid now
          { remainingConnections :=
              MAX_CONNECTIONS_PER_DAY - ((getDailyUsage st.usage token todayKey).count + 1)
            maxConnectionsPerDay := MAX_CONNECTIONS_PER_DAY
            usedToday := (getDailyUsage st.usage token todayKey).count + 1
            resetAt := resetAt
            sessionExpiresAt := some (now + MAX_SESSION_DURATION_MS)
            sessionRemainingMs := some MAX_SESSION_DURATION_MS },
        { usage := (incrementDailyUsage st.usage token todayKey).2
          sessions := mapSet st.sessions sid
            { id := sid, channelId := ch, userId := uid, joinedAt := now
              lastActivity := now, expiresAt := now + MAX_SESSION_DURATION_MS } }) := by
  simp only [createSessionRoute, incrementDailyUsage]
  rw [if_neg (Nat.not_le.mpr h)]

theorem createSessionRoute_of_ge (st : ServerState) (token ch uid : String)
    (now : Nat) (todayKey resetAt sid : String)
    (h : MAX_CONNECTIONS_PER_DAY ≤ (getDailyUsage st.usage token todayKey).count) :
    createSessionRoute st token ch uid now todayKey resetAt sid
      = (CreateSessionResult.quotaExceeded
          { remainingConnections := 0
            maxConnectionsPerDay := MAX_CONNECTIONS_PER_DAY
            usedToday := (getDailyUsage st.usage token todayKey).count
            resetAt := resetAt
            sessionExpiresAt := none
            sessionRemainingMs := none }, st) := by
  simp only [createSessionRoute]
  rw [if_pos h]

/-- C2: below the daily maximum, session creation succeeds and the usage
counter of the caller increments by exactly one with the new session stored;
at or above the maximum it returns the quota-exceeded payload carrying
usedToday, the maximum and resetAt, leaving the whole server state untouched;
and once the stored date key differs from the current day key the usage count
reads as zero again. -/
theorem C2_daily_quota (st : ServerState) (token ch uid : String) (now : Nat)
    (todayKey resetAt sid : String) :
    ((getDailyUsage st.usage token todayKey).count < MAX_CONNECTIONS_PER_DAY →
      (∃ limits,
          (createSessionRoute st token ch uid now todayKey resetAt sid).1
            = CreateSessionResult.created sid ch uid now limits)
        ∧ (getDailyUsage
            (createSessionRoute st token ch uid now todayKey resetAt sid).2.usage
            token todayKey).count
          = (getDailyUsage st.usage token todayKey).count + 1
        ∧ (mapGet
            (createSessionRoute st token ch uid now todayKey resetAt sid).2.sessions
            sid).isSome = true)
    ∧ (MAX_CONNECTIONS_PER_DAY ≤ (getDailyUsage st.usage token todayKey).count →
        createSessionRoute st token ch uid now todayKey resetAt sid
          = (CreateSessionResult.quotaExceeded
              { remainingConnections := 0
                maxConnectionsPerDay := MAX_CONNECTIONS_PER_DAY
                usedToday := (getDailyUsage st.usage token todayKey).count
                resetAt := resetAt
                sessionExpiresAt := none
                sessionRemainingMs := none }, st))
    ∧ (∀ (store : UsageStore) (user day : String),
        (∀ u, mapGet store user = some u → u.dateKey ≠ day) →
        (getDailyUsage store user day).count = 0) := by
  refine ⟨?_, ?_, ?_⟩
  · intro h
    rw [createSessionRoute_of_lt st token ch uid now todayKey resetAt sid h]
    refine ⟨⟨_, rfl⟩, ?_, ?_⟩
    · simpa using congrArg DailyUsage.count
        (getDailyUsage_after_increment st.usage token todayKey)
    · simp [mapGet_mapSet_self]
  · intro h
    exact createSessionRoute_of_ge st token ch uid now todayKey resetAt sid h
  · intro store user day h
    unfold getDailyUsage
    cases hm : mapGet store user with
    | none => rfl
    | some u => simp [h u hm]

/-- Witness for C2: from an empty store, the first creation under token "t"
reads back a usage count of one. -/
theorem C2_daily_quota_witness :
    (getDailyUsage
        (createSessionRoute ⟨[], []⟩ "t" "ch" "u" 0 "2024-01-01" "reset" "s1").2.usage
        "t" "2024-01-01").count = 1 :=
  ((C2_daily_quota ⟨[], []⟩ "t" "ch" "u" 0 "2024-01-01" "reset" "s1").1
      (by decide)).2.1

/-- C4: every session stored by the creation route satisfies
expiresAt = joinedAt + MAX_SESSION_DURATION_MS (so their difference is exactly
MAX_SESSION_DURATION_MS), and the heartbeat route rewrites only lastActivity
of the addressed session: all other fields including expiresAt, every other
session, and the usage store are untouched. -/
theorem C4_session_duration_and_heartbeat_frame (st : ServerState)
    (token ch uid : String) (now : Nat) (todayKey resetAt sid : String) :
    ((getDailyUsage st.usage token todayKey).count < MAX_CONNECTIONS_PER_DAY →
      ∀ sess : VoiceSession,
        mapGet (createSessionRoute st token ch uid now todayKey resetAt sid).2.sessions
            sid = some sess →
          sess.expiresAt = sess.joinedAt + MAX_SESSION_DURATION_MS
          ∧ sess.expiresAt - sess.joinedAt = MAX_SESSION_DURATION_MS)
    ∧ (∀ (sessionId : String) (hb : Nat) (sess : VoiceSession),
        mapGet st.sessions sessionId = some sess →
          (heartbeatRoute st sessionId hb).1 = HeartbeatResult.ok hb
          ∧ mapGet (heartbeatRoute st sessionId hb).2.sessions sessionId
              = some { sess with lastActivity := hb }
          ∧ (∀ other : String, other ≠ sessionId →
              mapGet (heartbeatRoute st sessionId hb).2.sessions other
                = mapGet st.sessions other)
          ∧ (heartbeatRoute st sessionId hb).2.usage = st.usage) := by
  constructor
  · intro h sess hget
    rw [createSessionRoute_of_lt st token ch uid now todayKey resetAt sid h] at hget
    simp [mapGet_mapSet_self] at hget
    subst hget
    simp
  · intro sessionId hb sess hget
    refine ⟨?_, ?_, ?_, ?_⟩
    · simp [heartbeatRoute, hget]
    · simp [heartbeatRoute, hget, mapGet_mapSet_self]
    · intro other hne
      simp [heartbeatRoute, hget, mapGet_mapSet_ne _ _ _ _ hne]
    · simp [heartbeatRoute, hget]

/-- Witness for C4: heartbeat on a concrete one-session store refreshes only
lastActivity. -/
theorem C4_session_duration_and_heartbeat_frame_witness :
    mapGet (heartbeatRoute
        ⟨[], [("s1", ⟨"s1", "ch", "u", 5, 5, 300005⟩)]⟩ "s1" 9).2.sessions "s1"
      = some ⟨"s1", "ch", "u", 5, 9, 300005⟩ :=
  ((C4_session_duration_and_heartbeat_frame
      ⟨[], [("s1", ⟨"s1", "ch", "u", 5, 5, 300005⟩)]⟩ "t" "ch" "u" 0 "d" "r" "sX").2
      "s1" 9 ⟨"s1", "ch", "u", 5, 5, 300005⟩ (by decide)).2.1

/-- C10: the daily-usage counter of the session-creation route is keyed by the
bearer token alone.  Two requests carrying the same token but different body
userId (or channelId) values leave the usage store in the same state and
report the same usedToday, while a request under one token never changes the
stored usage of any other token. -/
theorem C10_usage_keyed_by_token (st : ServerState) (token : String)
    (ch1 uid1 ch2 uid2 : String) (now : Nat) (todayKey resetAt sid : String) :
    ((createSessionRoute st token ch1 uid1 now todayKey resetAt sid).2.usage
        = (createSessionRoute st token ch2 uid2 now todayKey resetAt sid).2.usage)
    ∧ ((createSessionRoute st token ch1 uid1 now todayKey resetAt sid).1.limits.usedToday
        = (createSessionRoute st token ch2 uid2 now todayKey resetAt sid).1.limits.usedToday)
    ∧ (∀ other : String, other ≠ token →
        mapGet (createSessionRoute st token ch1 uid1 now todayKey resetAt sid).2.usage
            other
          = mapGet st.usage other) := by
  by_cases h : MAX_CONNECTIONS_PER_DAY ≤ (getDailyUsage st.usage token todayKey).count
  · rw [createSessionRoute_of_ge st token ch1 uid1 now todayKey resetAt sid h,
        createSessionRoute_of_ge st token ch2 uid2 now todayKey resetAt sid h]
    exact ⟨rfl, rfl, fun other _ => rfl⟩
  · have h' := Nat.lt_of_not_le h
    rw [createSessionRoute_of_lt st token ch1 uid1 now todayKey resetAt sid h',
        createSessionRoute_of_lt st token ch2 uid2 now todayKey resetAt sid h']
    refine ⟨rfl, rfl, fun other hne => ?_⟩
    simp [incrementDailyUsage, mapGet_mapSet_ne _ _ _ _ hne]

/-- Witness for C10: a creation under token "a" leaves the counter of token
"b" untouched. -/
theorem C10_usage_keyed_by_token_witness :
    mapGet (createSessionRoute ⟨[], []⟩ "a" "ch" "u1" 0 "d" "r" "s1").2.usage "b"
      = mapGet ([] : UsageStore) "b" :=
  (C10_usage_keyed_by_token ⟨[], []⟩ "a" "ch" "u1" "ch" "u2" 0 "d" "r" "s1").2.2
    "b" (by decide)

/-- C3: leave is idempotent.  From every hook state, a first leave (with the
inner unpublish possibly failing) resolves without error and ends with status
disconnected, and a second leave resolves without error, ends with status
disconnected, and changes nothing at all. -/
theorem C3_leave_idempotent (s : HookState) (f1 f2 : Bool) :
    (leave f1 s).status = ConnectionStatus.disconnected
    ∧ (leave f2 (leave f1 s)).status = ConnectionStatus.disconnected
    ∧ leave f2 (leave f1 s) = leave f1 s := by
  obtain ⟨sdk, st, cl, lat, vi, ati, aft, atp, fp, ct, nid, im, ru, nq, afn, iap, ipd, act, ad⟩ := s
  refine ⟨rfl, rfl, ?_⟩
  cases aft <;> cases cl <;> cases atp <;> cases f1 <;> rfl

theorem loadAudioFile_preserves_hookInv (d : Nat) (s : HookState)
    (h : hookInv s) : hookInv (loadAudioFile d s) := by
  obtain ⟨hnd, hmem, hfb, hcb, href⟩ := h
  obtain ⟨sdk, st, cl, lat, vi, ati, aft, atp, fp, ct, nid, im, ru, nq, afn, iap, ipd, act, ad⟩ := s
  cases sdk with
  | false => exact ⟨hnd, hmem, hfb, hcb, href⟩
  | true =>
      cases aft with
      | none =>
          refine ⟨hnd, ?_, ?_, ?_, ?_⟩
          · intro t ht
            rcases hmem t ht with hc | ⟨hr, _⟩
            · exact Or.inl hc
            · exact absurd hr (by simp)
          · intro t ht
            exact Nat.lt_succ_of_lt (hfb t ht)
          · intro t ht
            exact Nat.lt_succ_of_lt (hcb t ht)
          · intro t ht
            obtain rfl : nid = t := Option.some.inj ht
            refine ⟨Nat.lt_succ_self _, fun hc => ?_⟩
            exact Nat.lt_irrefl _ (hcb _ hc)
      | some t0 =>
          have ht0 := href t0 rfl
          refine ⟨hnd, ?_, ?_, ?_, ?_⟩
          · intro t ht
            rcases hmem t ht with hc | ⟨hr, _⟩
            · exact Or.inl (List.mem_cons_of_mem _ hc)
            · obtain rfl : t0 = t := by simpa using hr
              exact Or.inl (List.mem_cons_self _ _)
          · intro t ht
            exact Nat.lt_succ_of_lt (hfb t ht)
          · intro t ht
            rcases List.mem_cons.mp ht with rfl | hc
            · exact Nat.lt_succ_of_lt ht0.1
            · exact Nat.lt_succ_of_lt (hcb t hc)
          · intro t ht
            obtain rfl : nid = t := Option.some.inj ht
            refine ⟨Nat.lt_succ_self _, fun hc => ?_⟩
            rcases List.mem_cons.mp hc with rfl | hc2
            · exact Nat.lt_irrefl _ ht0.1
            · exact Nat.lt_irrefl _ (hcb _ hc2)

theorem playAudio_preserves_hookInv (s : HookState) (h : hookInv s) :
    hookInv (playAudio s) := by
  obtain ⟨hnd, hmem, hfb, hcb, href⟩ := h
  obtain ⟨sdk, st, cl, lat, vi, ati, aft, atp, fp, ct, nid, im, ru, nq, afn, iap, ipd, act, ad⟩ := s
  cases aft with
  | none => exact ⟨hnd, hmem, hfb, hcb, href⟩
  | some t0 =>
      have ht0 := href t0 rfl
      cases cl with
      | false => exact ⟨hnd, hmem, hfb, hcb, href⟩
      | true =>
          cases atp with
          | true => exact ⟨hnd, hmem, hfb, hcb, href⟩
          | false =>
              refine ⟨?_, ?_, ?_, hcb, ?_⟩
              · refine List.nodup_cons.mpr ⟨fun hc => ?_, hnd⟩
                rcases hmem t0 hc with hin | ⟨_, hfalse⟩
                · exact ht0.2 hin
                · cases hfalse
              · intro t ht
                rcases List.mem_cons.mp ht with rfl | hin
                · exact Or.inr ⟨rfl, rfl⟩
                · rcases hmem t hin with hc | ⟨_, hfalse⟩
                  · exact Or.inl hc
                  · cases hfalse
              · intro t ht
                rcases List.mem_cons.mp ht with rfl | hin
                · exact ht0.1
                · exact hfb t hin
              · intro t ht
                obtain rfl : t0 = t := Option.some.inj ht
                exact ht0

theorem stopAudio_preserves_hookInv (s : HookState) (h : hookInv s) :
    hookInv (stopAudio s) := by
  obtain ⟨hnd, hmem, hfb, hcb, href⟩ := h
  obtain ⟨sdk, st, cl, lat, vi, ati, aft, atp, fp, ct, nid, im, ru, nq, afn, iap, ipd, act, ad⟩ := s
  cases aft with
  | none => exact ⟨hnd, hmem, hfb, hcb, href⟩
  | some t0 =>
      cases cl with
      | false => exact ⟨hnd, hmem, hfb, hcb, href⟩
      | true =>
          cases atp with
          | false => exact ⟨hnd, hmem, hfb, hcb, href⟩
          | true =>
              refine ⟨List.Nodup.filter _ hnd, ?_, ?_, hcb, ?_⟩
              · intro t ht
                obtain ⟨hin, hne⟩ := List.mem_filter.mp ht
                have hne2 : t ≠ t0 := by simpa using hne
                rcases hmem t hin with hc | ⟨hr, _⟩
                · exact Or.inl hc
                · obtain rfl : t0 = t := Option.some.inj hr
                  exact (hne2 rfl).elim
              · intro t ht
                exact hfb t (List.mem_filter.mp ht).1
              · intro t ht
                obtain rfl : t0 = t := Option.some.inj ht
                exact href t0 rfl

theorem leave_preserves_hookInv (f : Bool) (s : HookState) (h : hookInv s) :
    hookInv (leave f s) := by
  obtain ⟨hnd, hmem, hfb, hcb, href⟩ := h
  obtain ⟨sdk, st, cl, lat, vi, ati, aft, atp, fp, ct, nid, im, ru, nq, afn, iap, ipd, act, ad⟩ := s
  cases aft with
  | none =>
      cases cl with
      | false => exact ⟨hnd, hmem, hfb, hcb, href⟩
      | true =>
          refine ⟨List.nodup_nil, ?_, ?_, hcb, ?_⟩
          · intro t ht; cases ht
          · intro t ht; cases ht
          · intro t ht; cases ht
  | some t0 =>
      have ht0 := href t0 rfl
      cases cl with
      | false =>
          refine ⟨hnd, ?_, hfb, ?_, ?_⟩
          · intro t ht
            rcases hmem t ht with hc | ⟨hr, _⟩
            · exact Or.inl (List.mem_cons_of_mem _ hc)
            · obtain rfl : t0 = t := by simpa using hr
              exact Or.inl (List.mem_cons_self _ _)
          · intro t ht
            rcases List.mem_cons.mp ht with rfl | hc
            · exact ht0.1
            · exact hcb t hc
          · intro t ht; cases ht
      | true =>
          cases atp <;> cases f <;>
          · refine ⟨List.nodup_nil, ?_, ?_, ?_, ?_⟩
            · intro t ht; cases ht
            · intro t ht; cases ht
            · intro t ht
              rcases List.mem_cons.mp ht with rfl | hc
              · exact ht0.1
              · exact hcb t hc
            · intro t ht; cases ht

theorem hookStep_preserves_hookInv (s : HookState) (op : HookOp)
    (h : hookInv s) : hookInv (hookStep s op) := by
  cases op with
  | sdkLoad => exact h
  | joinOk =>
      obtain ⟨sdk, st, cl, lat, vi, ati, aft, atp, fp, ct, nid, im, ru, nq, afn, iap, ipd, act, ad⟩ := s
      cases sdk with
      | false => exact h
      | true => exact h
  | load d => exact loadAudioFile_preserves_hookInv d s h
  | play => exact playAudio_preserves_hookInv s h
  | stopA => exact stopAudio_preserves_hookInv s h
  | leaveOp f => exact leave_preserves_hookInv f s h

theorem foldl_preserves_hookInv (ops : List HookOp) :
    ∀ s : HookState, hookInv s → hookInv (ops.foldl hookStep s) := by
  induction ops with
  | nil => intro s h; exact h
  | cons op rest ih =>
      intro s h
      exact ih _ (hookStep_preserves_hookInv s op h)

theorem initial_hookInv : hookInv initialHookState := by
  refine ⟨List.nodup_nil, ?_, ?_, ?_, ?_⟩ <;> intro t ht <;> exact nomatch ht

theorem nodup_all_eq_length_le_one {l : List Nat} (a : Nat)
    (hn : l.Nodup) (h : ∀ x ∈ l, x = a) : l.length ≤ 1 := by
  cases l with
  | nil => simp
  | cons x xs =>
      cases xs with
      | nil => simp
      | cons y rest =>
          exfalso
          have hx := h x (List.mem_cons_self _ _)
          have hy := h y (List.mem_cons_of_mem _ (List.mem_cons_self _ _))
          have hxy : x ≠ y := by
            intro he
            exact (List.nodup_cons.mp hn).1 (he ▸ List.mem_cons_self y rest)
          exact hxy (hx.trans hy.symm)

theorem livePublished_le_one (s : HookState) (h : hookInv s) :
    (livePublished s).length ≤ 1 := by
  obtain ⟨hnd, hmem, -, -, -⟩ := h
  have hnodup : (livePublished s).Nodup := List.Nodup.filter _ hnd
  have hall : ∀ y ∈ livePublished s, s.audioFileTrack = some y := by
    intro y hy
    obtain ⟨hin, hp⟩ := List.mem_filter.mp hy
    have hnc : y ∉ s.closedTracks := by simpa using hp
    rcases hmem y hin with hc | ⟨hr, _⟩
    · exact absurd hc hnc
    · exact hr
  cases haft : s.audioFileTrack with
  | none =>
      have hempty : livePublished s = [] := by
        cases hl : livePublished s with
        | nil => rfl
        | cons x rest =>
            have := hall x (by rw [hl]; exact List.mem_cons_self _ _)
            rw [haft] at this
            exact nomatch this
      simp [hempty]
  | some t0 =>
      refine nodup_all_eq_length_le_one t0 hnodup (fun y hy => ?_)
      have := hall y hy
      rw [haft] at this
      exact (Option.some.inj this).symm

/-- C5 counterexample: after loading and playing one file and then loading
and playing a second one (SDK loaded, client joined), two file tracks are in
the published set of the client: loading the second file closed the first
track (it appears in closedTracks) but never unpublished it, refuting the
claim that loading a second file first fully unpublishes — not merely
closes — the previous track so that at most one file track is ever
published. -/
theorem C5_counterexample :
    ¬ ((runHook [HookOp.sdkLoad, HookOp.joinOk, HookOp.load 10, HookOp.play,
          HookOp.load 10, HookOp.play]).filePublished.length ≤ 1)
    ∧ 0 ∈ (runHook [HookOp.sdkLoad, HookOp.joinOk, HookOp.load 10, HookOp.play,
          HookOp.load 10, HookOp.play]).filePublished
    ∧ 0 ∈ (runHook [HookOp.sdkLoad, HookOp.joinOk, HookOp.load 10, HookOp.play,
          HookOp.load 10, HookOp.play]).closedTracks := by
  decide

/-- C5 amended: loading a new file stops, closes and discards the previous
track without issuing any unpublish (the published set of the client is
untouched by loadAudioFile), so the closed track can remain in the published
set; what holds is that at most one open (non-closed) file track is ever
published at a time, over every operation sequence. -/
theorem C5_at_most_one_open_published (ops : List HookOp) :
    (livePublished (runHook ops)).length ≤ 1
    ∧ (∀ (d : Nat) (s : HookState),
        (loadAudioFile d s).filePublished = s.filePublished) := by
  constructor
  · exact livePublished_le_one _ (foldl_preserves_hookInv ops _ initial_hookInv)
  · intro d s
    obtain ⟨sdk, st, cl, lat, vi, ati, aft, atp, fp, ct, nid, im, ru, nq, afn, iap, ipd, act, ad⟩ := s
    cases sdk <;> cases aft <;> rfl

theorem expiryEffectBody_records (s : VoiceBotState) :
    (expiryEffectBody s).lastExpiryDeps = some (expiryDeps s) := by
  obtain ⟨c, tr, hs, ca, g, ld, pd, pl, nc, lc, dc⟩ := s
  unfold expiryEffectBody handleLeave
  dsimp only
  cases hs <;> split <;> rfl

theorem expiryDeps_expiryEffectBody (s : VoiceBotState) :
    expiryDeps (expiryEffectBody s) = expiryDeps s
    ∨ ((expiryEffectBody s).hasSession = false
        ∧ expiryDeps (expiryEffectBody s)
            = (s.timeRemaining, s.connected, s.handleLeaveGen + 1)) := by
  obtain ⟨c, tr, hs, ca, g, ld, pd, pl, nc, lc, dc⟩ := s
  unfold expiryEffectBody handleLeave expiryDeps
  dsimp only
  cases hs with
  | false => split <;> exact Or.inl rfl
  | true =>
      split
      · exact Or.inr ⟨rfl, rfl⟩
      · exact Or.inl rfl

theorem expiryDeps_expiryEffectBody_of_noSession (s : VoiceBotState)
    (h : s.hasSession = false) :
    expiryDeps (expiryEffectBody s) = expiryDeps s := by
  obtain ⟨c, tr, hs, ca, g, ld, pd, pl, nc, lc, dc⟩ := s
  dsimp only at h
  subst h
  unfold expiryEffectBody handleLeave expiryDeps
  dsimp only
  split <;> rfl

theorem effectPass_four_stable (s : VoiceBotState) :
    (effectPass 4 s).lastExpiryDeps = some (expiryDeps (effectPass 4 s)) := by
  have hrec : ∀ (n : Nat) (x : VoiceBotState),
      effectPass (n + 1) x
        = if x.lastExpiryDeps = some (expiryDeps x) then x
          else effectPass n (expiryEffectBody x) := fun _ _ => rfl
  by_cases h0 : s.lastExpiryDeps = some (expiryDeps s)
  · rw [hrec 3 s, if_pos h0]
    exact h0
  · rw [hrec 3 s, if_neg h0]
    by_cases h1 : expiryDeps (expiryEffectBody s) = expiryDeps s
    · have hc1 : (expiryEffectBody s).lastExpiryDeps
          = some (expiryDeps (expiryEffectBody s)) := by
        rw [expiryEffectBody_records, h1]
      rw [hrec 2 _, if_pos hc1]
      exact hc1
    · have hs1 : (expiryEffectBody s).hasSession = false := by
        rcases expiryDeps_expiryEffectBody s with hL | hR
        · exact absurd hL h1
        · exact hR.1
      have hc1 : ¬ ((expiryEffectBody s).lastExpiryDeps
          = some (expiryDeps (expiryEffectBody s))) := by
        rw [expiryEffectBody_records]
        intro hcon
        exact h1 (Option.some.inj hcon).symm
      rw [hrec 2 _, if_neg hc1]
      have h2 := expiryDeps_expiryEffectBody_of_noSession (expiryEffectBody s) hs1
      have hc2 : (expiryEffectBody (expiryEffectBody s)).lastExpiryDeps
          = some (expiryDeps (expiryEffectBody (expiryEffectBody s))) := by
        rw [expiryEffectBody_records, h2]
      rw [hrec 1 _, if_pos hc2]
      exact hc2

theorem expiryEffectBody_preserves_countdownInv (s : VoiceBotState)
    (h : countdownInv s) (hne : ¬ s.lastExpiryDeps = some (expiryDeps s)) :
    countdownInv (expiryEffectBody s) := by
  obtain ⟨h1, h2, h3, h4, h5, h6⟩ := h
  by_cases hg : s.timeRemaining = some 0 ∧ s.connected = true
  · have hcnt : s.leaveCallCount ≤ 1 := by
      by_contra hgt
      have h22 : s.leaveCallCount = 2 := by omega
      rcases h6 h22 with hstab | hdead
      · exact hne hstab
      · exact hdead hg
    by_cases hs : s.hasSession = true
    · have hc0 : s.leaveCallCount = 0 := by
        by_contra hne0
        have hfalse := (h3 (by omega)).1
        rw [hs] at hfalse
        exact Bool.noConfusion hfalse
      have hd0 : s.deleteCount = 0 := h4 hs
      have hres : expiryEffectBody s
          = { s with lastExpiryDeps := some (expiryDeps s)
                     noticeCount := s.noticeCount + 1
                     countdownActive := false
                     leaveCallCount := s.leaveCallCount + 1
                     hasSession := false
                     handleLeaveGen := s.handleLeaveGen + 1
                     deleteCount := s.deleteCount + 1
                     pendingDelete := s.pendingDelete + 1 } := by
        unfold expiryEffectBody handleLeave
        dsimp only
        rw [if_pos hg]
        rw [if_pos hs]
      rw [hres]
      refine ⟨?_, ?_, ?_, ?_, ?_, ?_⟩
      · show s.noticeCount + 1 = s.leaveCallCount + 1
        omega
      · show s.leaveCallCount + 1 ≤ 2
        omega
      · intro _
        exact ⟨rfl, rfl⟩
      · intro hbad
        exact Bool.noConfusion hbad
      · show s.deleteCount + 1 ≤ 1
        omega
      · intro hbad
        have : s.leaveCallCount + 1 = 2 := hbad
        omega
    · have hsf : s.hasSession = false := by
        revert hs
        cases s.hasSession <;> simp
      have hres : expiryEffectBody s
          = { s with lastExpiryDeps := some (expiryDeps s)
                     noticeCount := s.noticeCount + 1
                     countdownActive := false
                     leaveCallCount := s.leaveCallCount + 1
                     pendingLeave := s.pendingLeave + 1 } := by
        unfold expiryEffectBody handleLeave
        dsimp only
        rw [if_pos hg]
        rw [if_neg hs]
      rw [hres]
      refine ⟨?_, ?_, ?_, ?_, h5, ?_⟩
      · show s.noticeCount + 1 = s.leaveCallCount + 1
        omega
      · show s.leaveCallCount + 1 ≤ 2
        omega
      · intro _
        exact ⟨hsf, rfl⟩
      · intro hbad
        exact absurd hbad hs
      · intro _
        exact Or.inl rfl
  · have hres : expiryEffectBody s
        = { s with lastExpiryDeps := some (expiryDeps s) } := by
      unfold expiryEffectBody
      dsimp only
      rw [if_neg hg]
    rw [hres]
    refine ⟨h1, h2, h3, h4, h5, ?_⟩
    intro _
    exact Or.inl rfl

theorem effectPass_preserves_countdownInv (fuel : Nat) :
    ∀ s : VoiceBotState, countdownInv s → countdownInv (effectPass fuel s) := by
  induction fuel with
  | zero => intro s h; exact h
  | succ n ih =>
      intro s h
      unfold effectPass
      by_cases hstab : s.lastExpiryDeps = some (expiryDeps s)
      · rw [if_pos hstab]
        exact h
      · rw [if_neg hstab]
        exact ih _ (expiryEffectBody_preserves_countdownInv s h hstab)

theorem applyVoiceBotEvent_preserves_countdownInv (s : VoiceBotState)
    (e : VoiceBotEvent) (h : countdownInv s) :
    countdownInv (applyVoiceBotEvent s e) := by
  obtain ⟨h1, h2, h3, h4, h5, h6⟩ := h
  cases e with
  | tick =>
      unfold applyVoiceBotEvent
      by_cases hca : s.countdownActive = true
      · rw [if_pos hca]
        have hc0 : s.leaveCallCount = 0 := by
          by_contra hne0
          have hfalse := (h3 (by omega)).2
          rw [hca] at hfalse
          exact Bool.noConfusion hfalse
        cases htr : s.timeRemaining with
        | some t =>
            refine ⟨h1, h2, h3, h4, h5, ?_⟩
            intro hbad
            have hb2 : s.leaveCallCount = 2 := hbad
            exact absurd hb2 (by omega)
        | none =>
            refine ⟨h1, h2, h3, h4, h5, ?_⟩
            intro hbad
            have hb2 : s.leaveCallCount = 2 := hbad
            exact absurd hb2 (by omega)
      · rw [if_neg hca]
        exact ⟨h1, h2, h3, h4, h5, h6⟩
  | resolveDelete =>
      unfold applyVoiceBotEvent
      by_cases hpd : s.pendingDelete = 0
      · rw [if_pos hpd]
        exact ⟨h1, h2, h3, h4, h5, h6⟩
      · rw [if_neg hpd]
        refine ⟨h1, h2, h3, h4, h5, ?_⟩
        intro h22
        rcases h6 h22 with hstab | hdead
        · exact Or.inl hstab
        · exact Or.inr hdead
  | resolveLeave =>
      unfold applyVoiceBotEvent
      by_cases hpl : s.pendingLeave = 0
      · rw [if_pos hpl]
        exact ⟨h1, h2, h3, h4, h5, h6⟩
      · rw [if_neg hpl]
        refine ⟨h1, h2, h3, h4, h5, ?_⟩
        intro _
        refine Or.inr ?_
        intro hcon
        exact Bool.noConfusion hcon.2

theorem voiceBotStep_preserves_countdownInv (s : VoiceBotState)
    (e : VoiceBotEvent) (h : countdownInv s) :
    countdownInv (voiceBotStep s e) :=
  effectPass_preserves_countdownInv 4 _
    (applyVoiceBotEvent_preserves_countdownInv s e h)

theorem foldl_voiceBotStep_preserves_countdownInv (evs : List VoiceBotEvent) :
    ∀ s : VoiceBotState, countdownInv s →
      countdownInv (evs.foldl voiceBotStep s) := by
  induction evs with
  | nil => intro s h; exact h
  | cons e rest ih =>
      intro s h
      exact ih _ (voiceBotStep_preserves_countdownInv s e h)

theorem connectedCountdownState_countdownInv (T : Nat) :
    countdownInv (connectedCountdownState T) := by
  refine ⟨rfl, ?_, ?_, ?_, ?_, ?_⟩
  · show (0 : Nat) ≤ 2
    omega
  · intro hbad
    have : (1 : Nat) ≤ 0 := hbad
    omega
  · intro _
    rfl
  · show (0 : Nat) ≤ 1
    omega
  · intro hbad
    have : (0 : Nat) = 2 := hbad
    omega

/-- C6 counterexample: start connected with one second remaining and let the
countdown tick to zero.  The expiry effect fires the notice and handleLeave;
handleLeave synchronously nulls the session id, which recreates the
handleLeave callback, so the effect — whose dependency array contains
handleLeave — re-runs while timeRemaining is still zero and the status still
connected, firing the notice and handleLeave a second time.  The teardown is
therefore triggered twice, not exactly once, refuting the claim as stated. -/
theorem C6_counterexample :
    (runVoiceBot 1000 [VoiceBotEvent.tick]).leaveCallCount = 2
    ∧ (runVoiceBot 1000 [VoiceBotEvent.tick]).noticeCount = 2
    ∧ (runVoiceBot 1000 [VoiceBotEvent.tick]).connected = true
    ∧ (runVoiceBot 1000 [VoiceBotEvent.tick]).timeRemaining = some 0
    ∧ ¬ ((runVoiceBot 1000 [VoiceBotEvent.tick]).leaveCallCount = 1) := by
  decide

/-- C6 amended: when the countdown reaches zero while connected the automatic
leave with its session-expired notice is triggered, but twice rather than
exactly once: nulling sessionId inside handleLeave changes the callback
identity and re-fires the effect during the teardown window.  What holds for
a single countdown expiry is: the teardown fires at most twice with exactly
one notice per firing, at most one session DELETE is ever issued (the
duplicate finds sessionId already null and only repeats the idempotent client
teardown), the effect pass always reaches a fixpoint within its fuel, and on
the completed concrete run the page ends disconnected after two firings and
one DELETE. -/
theorem C6_expiry_leave_at_most_twice :
    (∀ (T : Nat) (evs : List VoiceBotEvent),
      (runVoiceBot T evs).leaveCallCount ≤ 2
      ∧ (runVoiceBot T evs).noticeCount = (runVoiceBot T evs).leaveCallCount
      ∧ (runVoiceBot T evs).deleteCount ≤ 1)
    ∧ (∀ s : VoiceBotState,
        (effectPass 4 s).lastExpiryDeps = some (expiryDeps (effectPass 4 s)))
    ∧ (runVoiceBot 1000 [VoiceBotEvent.tick, VoiceBotEvent.resolveDelete,
        VoiceBotEvent.resolveLeave, VoiceBotEvent.resolveLeave]).leaveCallCount = 2
    ∧ (runVoiceBot 1000 [VoiceBotEvent.tick, VoiceBotEvent.resolveDelete,
        VoiceBotEvent.resolveLeave, VoiceBotEvent.resolveLeave]).deleteCount = 1
    ∧ (runVoiceBot 1000 [VoiceBotEvent.tick, VoiceBotEvent.resolveDelete,
        VoiceBotEvent.resolveLeave, VoiceBotEvent.resolveLeave]).connected = false
    ∧ (runVoiceBot 1000 [VoiceBotEvent.tick, VoiceBotEvent.resolveDelete,
        VoiceBotEvent.resolveLeave, VoiceBotEvent.resolveLeave]).timeRemaining
        = none := by
  refine ⟨?_, effectPass_four_stable, by decide, by decide, by decide, by decide⟩
  intro T evs
  have hinv := foldl_voiceBotStep_preserves_countdownInv evs
    (connectedCountdownState T) (connectedCountdownState_countdownInv T)
  exact ⟨hinv.2.1, hinv.1, hinv.2.2.2.2.1⟩

/-- C7: join called while the SDK has not finished loading rejects with the
NotReady error carrying "Agora SDK not loaded" and leaves status untouched
(in particular it remains disconnected when it was disconnected), and any
provider exception during connect/publish makes join reject with JoinFailed
carrying the provider message while status transitions to error. -/
theorem C7_join_notReady_and_joinFailed (p : Except String Nat)
    (st : ConnectionStatus) :
    joinCall false p st
      = (Except.error (JoinError.notReady "Agora SDK not loaded"), st)
    ∧ (st = ConnectionStatus.disconnected →
        (joinCall false p st).2 = ConnectionStatus.disconnected)
    ∧ (∀ msg : String,
        joinCall true (Except.error msg) st
          = (Except.error (JoinError.joinFailed msg), ConnectionStatus.error)) := by
  refine ⟨rfl, ?_, fun msg => rfl⟩
  intro h
  exact h

/-- Witness for C7: the NotReady path from the disconnected state stays
disconnected. -/
theorem C7_join_notReady_and_joinFailed_witness :
    (joinCall false (Except.ok 7) ConnectionStatus.disconnected).2
      = ConnectionStatus.disconnected :=
  (C7_join_notReady_and_joinFailed (Except.ok 7) ConnectionStatus.disconnected).2.1 rfl

/-- C8: when the one-time ready message reports sdkAvailable false, start
resolves to failure and the worker process is killed, never left running; the
surfaced failure reason embeds the diagnostic string of the worker itself
(behind the "SDK not available: " marker) whenever the ready message carries
one, and the generic fallback text is used only when it carries none. -/
theorem C8_sdk_unavailable_kills_worker (s : BotMgrState) (msg : ReadyMsg)
    (h : msg.sdkAvailable = false) :
    (readyHandler s msg).2 = false
    ∧ (readyHandler s msg).1.processRunning = false
    ∧ (∀ e : String, msg.error = some e →
        (readyHandler s msg).1.lastError = some ("SDK not available: " ++ e))
    ∧ (msg.error = none →
        (readyHandler s msg).1.lastError = some sdkUnavailableFallback) := by
  obtain ⟨sa, aa, pa, er⟩ := msg
  subst h
  cases er with
  | none =>
      refine ⟨rfl, rfl, ?_, fun _ => rfl⟩
      intro e he
      exact nomatch he
  | some e0 =>
      refine ⟨rfl, rfl, ?_, ?_⟩
      · intro e he
        obtain rfl : e0 = e := Option.some.inj he
        rfl
      · intro he
        exact nomatch he

/-- Witness for C8: a concrete ready message with sdkAvailable false and a
worker diagnostic resolves false and surfaces that diagnostic. -/
theorem C8_sdk_unavailable_kills_worker_witness :
    (readyHandler ⟨true, false, false, false, none⟩
        ⟨false, false, false, some "pydub import failed"⟩).1.lastError
      = some ("SDK not available: " ++ "pydub import failed") :=
  (C8_sdk_unavailable_kills_worker ⟨true, false, false, false, none⟩
      ⟨false, false, false, some "pydub import failed"⟩ rfl).2.2.1
    "pydub import failed" rfl

theorem waitStep_timeout_resolves (rt : String) (st : WaitState) :
    ((waitStep rt st .timeoutFires).resolved).isSome = true := by
  simp only [waitStep]
  by_cases h : st.resolved = none
  · rw [if_pos h]
    rfl
  · rw [if_neg h]
    cases hr : st.resolved with
    | none => exact absurd hr h
    | some r => rfl

theorem waitStep_resolved_mono (rt : String) (st : WaitState) (e : WaitEvent)
    (h : st.resolved.isSome = true) :
    ((waitStep rt st e).resolved).isSome = true := by
  cases e with
  | msgArrives m =>
      simp only [waitStep]
      by_cases hc : (isResponseType m.type && decide (m.type ∈ st.pending)) = true
      · rw [if_pos hc]
        by_cases h2 : m.type = rt ∧ st.resolved = none
        · rw [h2.2] at h
          exact nomatch h
        · dsimp only
          rw [if_neg h2]
          exact h
      · rw [if_neg hc]
        exact h
  | timeoutFires => exact waitStep_timeout_resolves rt st

theorem waitStep_preserves_waitInv (rt : String) (st : WaitState) (e : WaitEvent)
    (h : waitInv rt st) : waitInv rt (waitStep rt st e) := by
  cases e with
  | msgArrives m =>
      simp only [waitStep]
      by_cases hc : (isResponseType m.type && decide (m.type ∈ st.pending)) = true
      · rw [if_pos hc]
        intro hsome hmem
        obtain ⟨hin, hne⟩ := List.mem_filter.mp hmem
        have hne2 : rt ≠ m.type := of_decide_eq_true hne
        by_cases h2 : m.type = rt ∧ st.resolved = none
        · exact hne2 h2.1.symm
        · dsimp only at hsome
          rw [if_neg h2] at hsome
          exact h hsome hin
      · rw [if_neg hc]
        exact h
  | timeoutFires =>
      simp only [waitStep]
      by_cases hr : st.resolved = none
      · rw [if_pos hr]
        intro hsome hmem
        obtain ⟨-, hne⟩ := List.mem_filter.mp hmem
        exact (of_decide_eq_true hne) rfl
      · rw [if_neg hr]
        exact h

theorem foldl_waitStep_resolved_mono (rt : String) (evs : List WaitEvent) :
    ∀ st : WaitState, st.resolved.isSome = true →
      ((evs.foldl (waitStep rt) st).resolved).isSome = true := by
  induction evs with
  | nil => intro st h; exact h
  | cons e rest ih =>
      intro st h
      exact ih _ (waitStep_resolved_mono rt st e h)

theorem foldl_waitStep_resolves_of_timeout (rt : String) (evs : List WaitEvent) :
    ∀ st : WaitState, WaitEvent.timeoutFires ∈ evs →
      ((evs.foldl (waitStep rt) st).resolved).isSome = true := by
  induction evs with
  | nil => intro st h; exact absurd h (List.not_mem_nil _)
  | cons e rest ih =>
      intro st h
      rcases List.mem_cons.mp h with he | hrest

      · subst he
        exact foldl_waitStep_resolved_mono rt rest _
          (waitStep_timeout_resolves rt st)
      · exact ih _ hrest

theorem foldl_waitStep_preserves_waitInv (rt : String) (evs : List WaitEvent) :
    ∀ st : WaitState, waitInv rt st → waitInv rt (evs.foldl (waitStep rt) st) := by
  induction evs with
  | nil => intro st h; exact h
  | cons e rest ih =>
      intro st h
      exact ih _ (waitStep_preserves_waitInv rt st e h)

/-- C9: whatever messages arrive, once the timeout timer fires the command
promise is resolved (it never hangs) and the pending callback for the
response type has been removed; a timeout with no prior matching response
resolves to the null result; and the command table gives every round trip the
30 second default timeout except the shutdown quit command, which uses 5
seconds. -/
theorem C9_command_timeouts_resolve (rt : String) (evs : List WaitEvent)
    (h : WaitEvent.timeoutFires ∈ evs) :
    ((runWait rt evs).resolved).isSome = true
    ∧ rt ∉ (runWait rt evs).pending
    ∧ (∀ rt2 : String,
        (waitStep rt2 (waitStart rt2) .timeoutFires).resolved = some none)
    ∧ quitCommand.timeoutMs = 5000
    ∧ initCommand.timeoutMs = 30000
    ∧ joinCommand.timeoutMs = 30000
    ∧ leaveCommand.timeoutMs = 30000
    ∧ playCommand.timeoutMs = 30000
    ∧ stopCommand.timeoutMs = 30000 := by
  have hres := foldl_waitStep_resolves_of_timeout rt evs (waitStart rt) h
  have hinv : waitInv rt (runWait rt evs) := by
    refine foldl_waitStep_preserves_waitInv rt evs (waitStart rt) ?_
    intro hsome
    exact nomatch hsome
  exact ⟨hres, hinv hres, fun rt2 => rfl, rfl, rfl, rfl, rfl, rfl, rfl⟩

/-- Witness for C9: a run consisting of the timeout alone is resolved. -/
theorem C9_command_timeouts_resolve_witness :
    ((runWait "init_response" [WaitEvent.timeoutFires]).resolved).isSome = true :=
  (C9_command_timeouts_resolve "init_response" [WaitEvent.timeoutFires]
      (List.mem_cons_self _ _)).1

end AGStreamer
